import Mathlib

/-!
Shallow embedding of the arcade-game state-update logic of `VibeCode.py`:
Tetris (board, collision, line clear, rotation), Snake (movement, growth,
direction changes), Space Invaders (alien formation movement, bullets,
speed interval) and Ice Climber (lazy platform-row generation).
Randomness in the source is modelled by explicit oracle parameters.
-/

namespace VibeCode

/-! ### Constants from the source -/

def BOARD_WIDTH : Nat := 12
def BOARD_HEIGHT : Nat := 22

def SNAKE_WIDTH : Nat := 40
def SNAKE_HEIGHT : Nat := 25

def INV_WIDTH : Nat := 60
def INV_HEIGHT : Nat := 20
def ALIEN_WIDTH : Nat := 3

def CLIMB_WIDTH : Nat := 30

/-! ### Tetris -/

/-- Board cell: `none` models Python `0`, `some c` models a piece-name tag. -/
abbrev Cell := Option Char

abbrev Board := List (List Cell)

/-- The PIECES table: coordinate sets per piece kind and rotation. -/
def PIECES (name : Char) : List (List (Int × Int)) :=
  match name with
  | 'I' => [[(0, 1), (1, 1), (2, 1), (3, 1)],
            [(2, 0), (2, 1), (2, 2), (2, 3)],
            [(0, 2), (1, 2), (2, 2), (3, 2)],
            [(1, 0), (1, 1), (1, 2), (1, 3)]]
  | 'O' => [[(1, 0), (2, 0), (1, 1), (2, 1)],
            [(1, 0), (2, 0), (1, 1), (2, 1)],
            [(1, 0), (2, 0), (1, 1), (2, 1)],
            [(1, 0), (2, 0), (1, 1), (2, 1)]]
  | 'T' => [[(1, 0), (0, 1), (1, 1), (2, 1)],
            [(1, 0), (1, 1), (2, 1), (1, 2)],
            [(0, 1), (1, 1), (2, 1), (1, 2)],
            [(1, 0), (0, 1), (1, 1), (1, 2)]]
  | 'S' => [[(1, 0), (2, 0), (0, 1), (1, 1)],
            [(1, 0), (1, 1), (2, 1), (2, 2)],
            [(1, 1), (2, 1), (0, 2), (1, 2)],
            [(0, 0), (0, 1), (1, 1), (1, 2)]]
  | 'Z' => [[(0, 0), (1, 0), (1, 1), (2, 1)],
            [(2, 0), (1, 1), (2, 1), (1, 2)],
            [(0, 1), (1, 1), (1, 2), (2, 2)],
            [(1, 0), (0, 1), (1, 1), (0, 2)]]
  | 'J' => [[(0, 0), (0, 1), (1, 1), (2, 1)],
            [(1, 0), (2, 0), (1, 1), (1, 2)],
            [(0, 1), (1, 1), (2, 1), (2, 2)],
            [(1, 0), (1, 1), (0, 2), (1, 2)]]
  | 'L' => [[(2, 0), (0, 1), (1, 1), (2, 1)],
            [(1, 0), (1, 1), (1, 2), (2, 2)],
            [(0, 1), (1, 1), (2, 1), (0, 2)],
            [(0, 0), (1, 0), (1, 1), (1, 2)]]
  | _ => []

/-- A falling piece: kind, rotation index, anchor position. -/
structure Piece where
  name : Char
  rotation : Nat
  x : Int
  y : Int
  deriving DecidableEq, Repr

/-- `Piece.get_cells(rot, off_x, off_y)`: piece offsets translated by anchor. -/
def get_cells (p : Piece) (rot : Nat) (ox oy : Int) : List (Int × Int) :=
  ((PIECES p.name).getD (rot % 4) []).map (fun q => (q.1 + p.x + ox, q.2 + p.y + oy))

structure TetrisState where
  board : Board
  score : Nat
  current : Piece
  game_over : Bool
  deriving DecidableEq, Repr

/-- Board lookup `board[y][x]`, with out-of-range access defaulting to empty.
In the source the access only happens at indices already checked in range. -/
def cellAt (board : Board) (y x : Int) : Cell :=
  (board.getD y.toNat []).getD x.toNat none

/-- `Tetris.check_collision(cells)` translated from the source. -/
def check_collision (board : Board) (cells : List (Int × Int)) : Bool :=
  cells.any fun c =>
    if c.1 < 0 ∨ (BOARD_WIDTH : Int) ≤ c.1 ∨ (BOARD_HEIGHT : Int) ≤ c.2 then true
    else if 0 ≤ c.2 ∧ (cellAt board c.2 c.1).isSome then true
    else false

/-- Python `all(row)`: every cell is truthy (non-zero). -/
def full_row (row : List Cell) : Bool := row.all (fun c => c.isSome)

/-- An empty board row, `[0] * BOARD_WIDTH`. -/
def empty_row : List Cell := List.replicate BOARD_WIDTH none

/-- The row-scanning loop of `clear_lines`: keeps non-full rows in order and
counts the full ones. -/
def clear_scan : Board → Board × Nat
  | [] => ([], 0)
  | row :: rest =>
    let r := clear_scan rest
    if full_row row then (r.1, r.2 + 1) else (row :: r.1, r.2)

/-- `Tetris.clear_lines`: drop full rows, reinsert that many empty rows at the
top, and add `lines_cleared * 100` to the score. -/
def clear_lines (board : Board) (score : Nat) : Board × Nat :=
  let r := clear_scan board
  (List.replicate r.2 empty_row ++ r.1, score + r.2 * 100)

/-- `Tetris.rotate()`: try the next rotation index modulo 4; commit only when
the rotated cell set does not collide. -/
def rotate (s : TetrisState) : TetrisState :=
  let new_rot := (s.current.rotation + 1) % 4
  if ¬ check_collision s.board (get_cells s.current new_rot 0 0) then
    { s with current := { s.current with rotation := new_rot } }
  else s

/-! ### Snake -/

structure SnakeState where
  snake : List (Int × Int)
  direction : Int × Int
  food : Int × Int
  score : Nat
  game_over : Bool
  deriving DecidableEq, Repr

/-- `snake[0] + direction`, the head position proposed by a movement tick.
The source indexes `snake[0]`; every real state has a nonempty body, so the
default used for the empty list is irrelevant under that hypothesis. -/
def new_head (s : SnakeState) : Int × Int :=
  ((s.snake.headD (0, 0)).1 + s.direction.1, (s.snake.headD (0, 0)).2 + s.direction.2)

/-- The terminal condition of `Snake.move_snake`: the new head is inside the
current body (tail included) or on/outside the border walls. -/
def snake_hits (s : SnakeState) : Bool :=
  decide (new_head s ∈ s.snake) ||
  decide ((new_head s).1 ≤ 0) || decide ((SNAKE_WIDTH : Int) - 1 ≤ (new_head s).1) ||
  decide ((new_head s).2 ≤ 0) || decide ((SNAKE_HEIGHT : Int) - 1 ≤ (new_head s).2)

/-- `Snake.move_snake`, with the rejection-sampled food position `nf`
supplied as an oracle (used only when the food is eaten). -/
def move_snake (s : SnakeState) (nf : Int × Int) : SnakeState :=
  if snake_hits s then { s with game_over := true }
  else if new_head s = s.food then
    { s with snake := new_head s :: s.snake, score := s.score + 1, food := nf }
  else
    { s with snake := (new_head s :: s.snake).dropLast }

/-- The four arrow keys consumed by `Snake.change_dir`. -/
inductive SnakeKey where
  | up | down | left | right
  deriving DecidableEq, Repr

/-- The direction a given arrow key requests. -/
def requested_dir : SnakeKey → Int × Int
  | .up => (0, -1)
  | .down => (0, 1)
  | .left => (-1, 0)
  | .right => (1, 0)

/-- `Snake.change_dir(key)` translated from the source `elif` chain. -/
def change_dir (d : Int × Int) (k : SnakeKey) : Int × Int :=
  match k with
  | .up => if d ≠ (0, 1) then (0, -1) else d
  | .down => if d ≠ (0, -1) then (0, 1) else d
  | .left => if d ≠ (1, 0) then (-1, 0) else d
  | .right => if d ≠ (-1, 0) then (1, 0) else d

/-! ### Space Invaders -/

structure InvState where
  player_x : Int
  bullets : List (Int × Int)
  aliens : List (Int × Int)
  direction : Int
  move_interval : ℚ
  game_over : Bool
  score : Nat
  deriving DecidableEq, Repr

/-- `SpaceInvaders.setup_aliens`: 3 rows by 5 columns, row-major. -/
def setup_aliens : List (Int × Int) :=
  (List.range 3).flatMap fun row =>
    (List.range 5).map fun col => ((6 + (col : Int) * 8, 2 + (row : Int) * 2))

/-- The freshly constructed `SpaceInvaders` state (`move_interval = INV_TICK`). -/
def init_inv : InvState :=
  { player_x := (INV_WIDTH : Int) / 2
    bullets := []
    aliens := setup_aliens
    direction := 1
    move_interval := 1 / 5
    game_over := false
    score := 0 }

/-- `SpaceInvaders.move_aliens` translated loop by loop: first shift every
alien horizontally while accumulating the `need_down` flag, then on a flagged
descent reverse the direction, move every alien down one row while flagging
game over at the lower bound, and shrink the tick interval. -/
def move_aliens (s : InvState) : InvState :=
  let pass1 := s.aliens.foldl
    (fun (acc : List (Int × Int) × Bool) alien =>
      let a := (alien.1 + s.direction, alien.2)
      (acc.1 ++ [a],
       acc.2 || (decide (a.1 ≤ 1) || decide ((INV_WIDTH : Int) - 2 ≤ a.1 + (ALIEN_WIDTH : Int) - 1))))
    ([], false)
  if pass1.2 then
    let pass2 := pass1.1.foldl
      (fun (acc : List (Int × Int) × Bool) alien =>
        let a := (alien.1, alien.2 + 1)
        (acc.1 ++ [a], acc.2 || decide ((INV_HEIGHT : Int) - 1 ≤ a.2)))
      ([], s.game_over)
    { s with aliens := pass2.1
             direction := -s.direction
             game_over := pass2.2
             move_interval := max (s.move_interval * (9 / 10)) (1 / 20) }
  else
    { s with aliens := pass1.1 }

/-- The inner alien-scan of `step_bullets`: walk the alien list in order and
remove the first alien hit by a bullet at `(x, y)`, or return `none` when no
alien is hit. -/
def hit_scan (x y : Int) : List (Int × Int) → Option (List (Int × Int))
  | [] => none
  | a :: rest =>
    if a.2 == y && decide (a.1 ≤ x) && decide (x < a.1 + (ALIEN_WIDTH : Int)) then
      some rest
    else (hit_scan x y rest).map (a :: ·)

/-- One iteration of the bullet loop in `step_bullets`, threading the alien
list, the score and the accumulated surviving-bullet list. -/
def bullet_step (acc : List (Int × Int) × Nat × List (Int × Int)) (b : Int × Int) :
    List (Int × Int) × Nat × List (Int × Int) :=
  let y := b.2 - 1
  if y ≤ 0 then acc
  else match hit_scan b.1 y acc.1 with
    | some aliens => (aliens, acc.2.1 + 10, acc.2.2)
    | none => (acc.1, acc.2.1, acc.2.2 ++ [(b.1, y)])

/-- `SpaceInvaders.step_bullets` translated from the source. -/
def step_bullets (s : InvState) : InvState :=
  let r := s.bullets.foldl bullet_step (s.aliens, s.score, [])
  { s with aliens := r.1, score := r.2.1, bullets := r.2.2 }

/-- One state update of a Space Invaders session, as performed by
`SpaceInvaders.run`: an alien movement step, a bullet step, or one of the
input-driven updates (player movement bounded to the inner width, firing
capped at two concurrent bullets). -/
inductive InvUpdate : InvState → InvState → Prop where
  | aliens (s : InvState) : InvUpdate s (move_aliens s)
  | bullets (s : InvState) : InvUpdate s (step_bullets s)
  | left (s : InvState) : 1 < s.player_x → InvUpdate s { s with player_x := s.player_x - 1 }
  | right (s : InvState) : s.player_x < (INV_WIDTH : Int) - 2 →
      InvUpdate s { s with player_x := s.player_x + 1 }
  | fire (s : InvState) : s.bullets.length < 2 →
      InvUpdate s { s with bullets := s.bullets ++ [(s.player_x, (INV_HEIGHT : Int) - 2)] }

/-- States reachable in a session started from the freshly constructed game. -/
def InvReachable (s : InvState) : Prop :=
  Relation.ReflTransGen InvUpdate init_inv s

/-! ### Ice Climber row generation -/

abbrev Row := List Char

/-- The initial solid floor row built when the world is empty. -/
def floor_row : Row := '|' :: (List.replicate CLIMB_WIDTH '=' ++ ['|'])

/-- An all-empty spacer row. -/
def blank_row : Row := '|' :: (List.replicate CLIMB_WIDTH ' ' ++ ['|'])

/-- The interior `parts` array of a platform row: all `'='`, with the three
cells starting at `gap` carved to spaces. -/
def plat_parts (gap : Nat) : List Char :=
  (List.range 3).foldl (fun p i => p.set (gap + i) ' ') (List.replicate CLIMB_WIDTH '=')

/-- A platform row with its carved gap, walls included. -/
def plat_row (gap : Nat) : Row := '|' :: (plat_parts gap ++ ['|'])

/-- `IceClimber.generate_row`, with the two `random.randint` draws (`gap` in
`[1, CLIMB_WIDTH - 4]` and the countdown reset in `[1, 2]`) supplied as
oracle arguments; the state is the world list plus the `next_platform`
countdown. -/
def generate_row (st : List Row × Nat) (gap reset : Nat) : List Row × Nat :=
  if st.1 = [] then (st.1 ++ [floor_row], st.2)
  else if 0 < st.2 then (st.1 ++ [blank_row], st.2 - 1)
  else (st.1 ++ [plat_row gap], reset)

/-- `IceClimber.generate_rows(n)` driven by a stream of oracle draws; the
`k`-th call to `generate_row` consumes `stream k`. -/
def generate_rows (stream : Nat → Nat × Nat) : Nat → List Row × Nat → List Row × Nat
  | 0, st => st
  | n + 1, st => generate_row (generate_rows stream n st) (stream n).1 (stream n).2

/-- The world produced by `n` generation calls from an empty world with
initial countdown `cd`, as in `IceClimber.__init__`. -/
def gen_world (stream : Nat → Nat × Nat) (n cd : Nat) : List Row :=
  (generate_rows stream n ([], cd)).1

/-- Row `i` of a world (bottom-up, as stored). -/
def row_at (w : List Row) (i : Nat) : Row := w.getD i []

/-- The interior cells of a row (walls stripped). -/
def interior (r : Row) : List Char := (r.drop 1).dropLast

/-- A platform row in the sense of the spec: some interior cell is a
platform cell. -/
def IsPlatformRow (r : Row) : Prop := '=' ∈ interior r

/-- An all-empty row in the sense of the spec. -/
def IsBlankRow (r : Row) : Prop := ∀ c ∈ interior r, c = ' '

/-- A row whose interior consists of platform cells except for exactly one
contiguous 3-cell-wide gap of empty cells. -/
def OneGapRow (r : Row) : Prop :=
  ∃ g, g < CLIMB_WIDTH - 3 ∧ 1 ≤ g ∧
    (∀ i, i < CLIMB_WIDTH →
      (((interior r).getD i '=') = ' ' ↔ (g ≤ i ∧ i ≤ g + 2)) ∧
      (((interior r).getD i '=') = ' ' ∨ ((interior r).getD i '=') = '='))

/-- Every platform row of the world carries exactly one 3-cell gap
(`skip` rows at the bottom are exempted). -/
def GapProp (skip : Nat) (w : List Row) : Prop :=
  ∀ i, skip ≤ i → i < w.length → IsPlatformRow (row_at w i) → OneGapRow (row_at w i)

/-- Between any two consecutive platform rows of the world lie exactly one
or two rows, and those rows are all-empty spacer rows. -/
def SpacingProp (w : List Row) : Prop :=
  ∀ i j, i < j → j < w.length →
    IsPlatformRow (row_at w i) → IsPlatformRow (row_at w j) →
    (∀ k, i < k → k < j → ¬ IsPlatformRow (row_at w k)) →
    (j = i + 2 ∨ j = i + 3) ∧ (∀ k, i < k → k < j → IsBlankRow (row_at w k))

/-- Bookkeeping invariant tying the countdown to the world top: above the
last platform row sit exactly `t` spacer rows, and `t` plus the countdown
is the 1-or-2 reset drawn after that platform row. -/
def TrailingProp (w : List Row) (cd : Nat) : Prop :=
  w = [] ∨ ∃ t, (t + cd = 1 ∨ t + cd = 2) ∧ t < w.length ∧
    (∀ k, w.length - t ≤ k → k < w.length → row_at w k = blank_row) ∧
    IsPlatformRow (row_at w (w.length - 1 - t))

instance (r : Row) : Decidable (IsPlatformRow r) :=
  decidable_of_iff ('=' ∈ interior r) Iff.rfl

instance (r : Row) : Decidable (IsBlankRow r) :=
  decidable_of_iff (∀ c ∈ interior r, c = ' ') Iff.rfl

instance (r : Row) : Decidable (OneGapRow r) :=
  decidable_of_iff
    (∃ g, g < CLIMB_WIDTH - 3 ∧ 1 ≤ g ∧
      (∀ i, i < CLIMB_WIDTH →
        (((interior r).getD i '=') = ' ' ↔ (g ≤ i ∧ i ≤ g + 2)) ∧
        (((interior r).getD i '=') = ' ' ∨ ((interior r).getD i '=') = '='))) Iff.rfl

/-- The worlds (with their countdown) reachable by `generate_row` from an
empty world whose countdown was initialised to 1 or 2. -/
inductive GenInv : List Row → Nat → Prop where
  | start (cd : Nat) : (cd = 1 ∨ cd = 2) → GenInv [] cd
  | floor (cd : Nat) : (cd = 1 ∨ cd = 2) → GenInv [floor_row] cd
  | blank (w : List Row) (cd : Nat) : GenInv w (cd + 1) → w ≠ [] →
      GenInv (w ++ [blank_row]) cd
  | plat (w : List Row) (g cd : Nat) : GenInv w 0 → w ≠ [] →
      1 ≤ g → g ≤ CLIMB_WIDTH - 4 → (cd = 1 ∨ cd = 2) →
      GenInv (w ++ [plat_row g]) cd

/-! ### Theorems -/

theorem clear_scan_eq (board : Board) :
    clear_scan board = (board.filter (fun r => ! full_row r), board.countP full_row) := by
  induction board with
  | nil => simp [clear_scan]
  | cons row rest ih =>
    simp only [clear_scan, ih, List.filter_cons, List.countP_cons]
    by_cases h : full_row row <;> simp [h]

theorem clear_scan_length (board : Board) :
    (clear_scan board).2 + (clear_scan board).1.length = board.length := by
  induction board with
  | nil => simp [clear_scan]
  | cons row rest ih =>
    simp only [clear_scan]
    by_cases h : full_row row <;> simp [h] <;> omega

/-- C1: `clear_lines` removes exactly the rows in which all cells are
occupied, inserts that many empty rows at the top while preserving the
relative order of the remaining rows, adds exactly 100 times the number of
cleared rows to the score, and leaves the board height unchanged. -/
theorem clear_lines_spec (board : Board) (score : Nat) :
    (clear_lines board score).1.length = board.length ∧
    (clear_lines board score).1 =
      List.replicate (board.countP full_row) empty_row ++
        board.filter (fun r => ! full_row r) ∧
    (clear_lines board score).2 = score + 100 * board.countP full_row := by
  refine ⟨?_, ?_, ?_⟩
  · simp only [clear_lines, List.length_append, List.length_replicate]
    exact clear_scan_length board
  · simp only [clear_lines, clear_scan_eq]
  · simp only [clear_lines, clear_scan_eq]
    ring

theorem check_collision_cell (board : Board) (c : Int × Int) :
    ((if c.1 < 0 ∨ (BOARD_WIDTH : Int) ≤ c.1 ∨ (BOARD_HEIGHT : Int) ≤ c.2 then true
      else if 0 ≤ c.2 ∧ (cellAt board c.2 c.1).isSome then true else false) = true) ↔
    (c.1 < 0 ∨ (BOARD_WIDTH : Int) ≤ c.1 ∨ (BOARD_HEIGHT : Int) ≤ c.2 ∨
      (0 ≤ c.2 ∧ (cellAt board c.2 c.1).isSome = true)) := by
  by_cases hA : c.1 < 0 ∨ (BOARD_WIDTH : Int) ≤ c.1 ∨ (BOARD_HEIGHT : Int) ≤ c.2
  · simp only [if_pos hA]
    tauto
  · simp only [if_neg hA]
    constructor
    · intro h
      by_cases hB : 0 ≤ c.2 ∧ (cellAt board c.2 c.1).isSome
      · exact Or.inr (Or.inr (Or.inr ⟨hB.1, hB.2⟩))
      · simp [if_neg hB] at h
    · intro h
      have hB : 0 ≤ c.2 ∧ (cellAt board c.2 c.1).isSome := by tauto
      simp [if_pos hB]

/-- C2: `check_collision` returns true iff some cell has `x < 0`, or
`x ≥ BOARD_WIDTH`, or `y ≥ BOARD_HEIGHT`, or (`y ≥ 0` and the board cell at
`(y, x)` is occupied); a cell with `y < 0` and `x` inside `[0, width)`
contributes no collision. -/
theorem check_collision_spec (board : Board) (cells : List (Int × Int)) :
    (check_collision board cells = true ↔
      ∃ c ∈ cells, c.1 < 0 ∨ (BOARD_WIDTH : Int) ≤ c.1 ∨ (BOARD_HEIGHT : Int) ≤ c.2 ∨
        (0 ≤ c.2 ∧ (cellAt board c.2 c.1).isSome = true)) ∧
    (∀ x y : Int, y < 0 → 0 ≤ x → x < (BOARD_WIDTH : Int) →
      check_collision board [(x, y)] = false) := by
  constructor
  · rw [check_collision, List.any_eq_true]
    exact exists_congr fun c => and_congr_right fun _ => check_collision_cell board c
  · intro x y hy hx hxw
    rw [check_collision]
    simp only [List.any_cons, List.any_nil, Bool.or_false]
    rw [if_neg, if_neg]
    · intro h
      exact absurd h.1 (by omega)
    · intro h
      rcases h with h | h | h <;> omega

/-- C2 witness: the characterisation evaluated at a concrete board and cell
list (an out-of-bounds cell on the left wall). -/
theorem check_collision_spec_witness :
    (check_collision [] [((-1 : Int), (0 : Int))] = true ↔
      ∃ c ∈ [((-1 : Int), (0 : Int))],
        c.1 < 0 ∨ (BOARD_WIDTH : Int) ≤ c.1 ∨ (BOARD_HEIGHT : Int) ≤ c.2 ∨
          (0 ≤ c.2 ∧ (cellAt [] c.2 c.1).isSome = true)) ∧
    (∀ x y : Int, y < 0 → 0 ≤ x → x < (BOARD_WIDTH : Int) →
      check_collision [] [(x, y)] = false) :=
  check_collision_spec [] [((-1 : Int), (0 : Int))]

/-- C8: when the cell set at the next rotation index modulo 4 collides,
`rotate()` leaves the entire game state unchanged. -/
theorem rotate_rejected_noop (s : TetrisState)
    (h : check_collision s.board
      (get_cells s.current ((s.current.rotation + 1) % 4) 0 0) = true) :
    rotate s = s := by
  unfold rotate
  simp [h]

/-- C8 witness: an `I` piece near the bottom wall whose rotation collides,
on an otherwise empty board; the rejected rotation is a no-op. -/
theorem rotate_rejected_noop_witness :
    check_collision (List.replicate BOARD_HEIGHT empty_row)
      (get_cells { name := 'I', rotation := 0, x := 4, y := 20 } ((0 + 1) % 4) 0 0) = true ∧
    rotate { board := List.replicate BOARD_HEIGHT empty_row, score := 0,
             current := { name := 'I', rotation := 0, x := 4, y := 20 },
             game_over := false } =
      { board := List.replicate BOARD_HEIGHT empty_row, score := 0,
        current := { name := 'I', rotation := 0, x := 4, y := 20 },
        game_over := false } :=
  ⟨by decide, rotate_rejected_noop _ (by decide)⟩

/-- C9: a direction-change request equal to the exact opposite of the
current direction leaves the stored direction unchanged; any non-opposite
arrow request sets the stored direction to the requested one. -/
theorem change_dir_spec (d : Int × Int) (k : SnakeKey)
    (h : d = (1, 0) ∨ d = (-1, 0) ∨ d = (0, 1) ∨ d = (0, -1)) :
    change_dir d k = if requested_dir k = (-d.1, -d.2) then d else requested_dir k := by
  rcases h with rfl | rfl | rfl | rfl <;> cases k <;> decide

/-- C9 witness: with current direction `(1, 0)`, a left request (the exact
opposite) leaves the direction unchanged. -/
theorem change_dir_spec_witness :
    (((1 : Int), (0 : Int)) = (1, 0) ∨ ((1 : Int), (0 : Int)) = (-1, 0) ∨
      ((1 : Int), (0 : Int)) = (0, 1) ∨ ((1 : Int), (0 : Int)) = (0, -1)) ∧
    change_dir (1, 0) SnakeKey.left =
      (if requested_dir SnakeKey.left = (-((1 : Int), (0 : Int)).1, -((1 : Int), (0 : Int)).2)
       then ((1 : Int), (0 : Int)) else requested_dir SnakeKey.left) :=
  ⟨Or.inl rfl, change_dir_spec (1, 0) SnakeKey.left (Or.inl rfl)⟩

theorem getLast?_cons_ne_nil {α : Type} (x : α) {l : List α} (h : l ≠ []) :
    (x :: l).getLast? = l.getLast? := by
  cases l with
  | nil => exact absurd rfl h
  | cons b m => rw [List.getLast?_cons_cons]

/-- C3: on a non-terminal movement tick, the snake grows by exactly one
segment when the new head coincides with the food (score up by one, body kept
whole, previous tail not removed), and keeps its length otherwise (new head
prepended, tail dropped). -/
theorem move_snake_growth (s : SnakeState) (nf : Int × Int)
    (hne : s.snake ≠ []) (hterm : snake_hits s = false) :
    (new_head s = s.food →
      (move_snake s nf).snake.length = s.snake.length + 1 ∧
      (move_snake s nf).score = s.score + 1 ∧
      (move_snake s nf).snake = new_head s :: s.snake ∧
      (move_snake s nf).snake.getLast? = s.snake.getLast?) ∧
    (new_head s ≠ s.food →
      (move_snake s nf).snake.length = s.snake.length ∧
      (move_snake s nf).snake = new_head s :: s.snake.dropLast ∧
      (move_snake s nf).score = s.score) := by
  constructor
  · intro hf
    unfold move_snake
    simp only [hterm, Bool.false_eq_true, if_false, if_pos hf]
    refine ⟨by simp, by trivial, by trivial, getLast?_cons_ne_nil _ hne⟩
  · intro hf
    unfold move_snake
    simp only [hterm, Bool.false_eq_true, if_false, if_neg hf]
    refine ⟨?_, ?_, by trivial⟩
    · simp only [List.length_dropLast, List.length_cons]
      omega
    · cases hs : s.snake with
      | nil => exact absurd hs hne
      | cons b m => rw [List.dropLast_cons₂]

/-- C3 witness: a one-segment snake heading straight into the food grows to
length two, scores, and keeps its previous tail cell this tick. -/
theorem move_snake_growth_witness :
    (({ snake := [(5, 5)], direction := (1, 0), food := (6, 5), score := 0,
        game_over := false } : SnakeState).snake ≠ []) ∧
    snake_hits { snake := [(5, 5)], direction := (1, 0), food := (6, 5), score := 0,
                 game_over := false } = false ∧
    (new_head { snake := [(5, 5)], direction := (1, 0), food := (6, 5), score := 0,
                game_over := false } =
        ({ snake := [(5, 5)], direction := (1, 0), food := (6, 5), score := 0,
           game_over := false } : SnakeState).food →
      (move_snake { snake := [(5, 5)], direction := (1, 0), food := (6, 5), score := 0,
                    game_over := false } (8, 8)).snake.length =
        ({ snake := [(5, 5)], direction := (1, 0), food := (6, 5), score := 0,
           game_over := false } : SnakeState).snake.length + 1 ∧
      (move_snake { snake := [(5, 5)], direction := (1, 0), food := (6, 5), score := 0,
                    game_over := false } (8, 8)).score =
        ({ snake := [(5, 5)], direction := (1, 0), food := (6, 5), score := 0,
           game_over := false } : SnakeState).score + 1 ∧
      (move_snake { snake := [(5, 5)], direction := (1, 0), food := (6, 5), score := 0,
                    game_over := false } (8, 8)).snake =
        new_head { snake := [(5, 5)], direction := (1, 0), food := (6, 5), score := 0,
                   game_over := false } ::
          ({ snake := [(5, 5)], direction := (1, 0), food := (6, 5), score := 0,
             game_over := false } : SnakeState).snake ∧
      (move_snake { snake := [(5, 5)], direction := (1, 0), food := (6, 5), score := 0,
                    game_over := false } (8, 8)).snake.getLast? =
        ({ snake := [(5, 5)], direction := (1, 0), food := (6, 5), score := 0,
           game_over := false } : SnakeState).snake.getLast?) :=
  ⟨by decide, by decide,
    (move_snake_growth _ (8, 8) (by decide) (by decide)).1⟩

/-- C10: the self-collision test compares the new head against the whole
current body, tail included, so moving the head onto the current tail cell
triggers game over even though that cell would be vacated this tick. -/
theorem snake_tail_collision (s : SnakeState) (nf : Int × Int)
    (hlen : 2 ≤ s.snake.length)
    (htail : s.snake.getLast? = some (new_head s)) :
    (move_snake s nf).game_over = true := by
  have hmem : new_head s ∈ s.snake := by
    have hx : new_head s ∈ s.snake.getLast? := Option.mem_def.mpr htail
    obtain ⟨hne2, heq⟩ := List.mem_getLast?_eq_getLast hx
    rw [heq]
    exact List.getLast_mem hne2
  have hhits : snake_hits s = true := by
    unfold snake_hits
    simp [hmem]
  unfold move_snake
  simp [hhits]

/-- C10 witness: a two-segment snake turning onto its own tail cell dies. -/
theorem snake_tail_collision_witness :
    2 ≤ ({ snake := [(5, 5), (6, 5)], direction := (1, 0), food := (10, 10), score := 0,
           game_over := false } : SnakeState).snake.length ∧
    ({ snake := [(5, 5), (6, 5)], direction := (1, 0), food := (10, 10), score := 0,
       game_over := false } : SnakeState).snake.getLast? =
      some (new_head { snake := [(5, 5), (6, 5)], direction := (1, 0), food := (10, 10),
                       score := 0, game_over := false }) ∧
    (move_snake { snake := [(5, 5), (6, 5)], direction := (1, 0), food := (10, 10),
                  score := 0, game_over := false } (2, 2)).game_over = true :=
  ⟨by decide, by decide, snake_tail_collision _ (2, 2) (by decide) (by decide)⟩

theorem pass1_fold (d : Int) (l : List (Int × Int)) (acc : List (Int × Int)) (b : Bool) :
    l.foldl
      (fun (acc : List (Int × Int) × Bool) alien =>
        let a := (alien.1 + d, alien.2)
        (acc.1 ++ [a],
         acc.2 || (decide (a.1 ≤ 1) ||
           decide ((INV_WIDTH : Int) - 2 ≤ a.1 + (ALIEN_WIDTH : Int) - 1))))
      (acc, b) =
    (acc ++ l.map (fun alien => (alien.1 + d, alien.2)),
     b || l.any (fun alien => decide (alien.1 + d ≤ 1) ||
       decide ((INV_WIDTH : Int) - 2 ≤ alien.1 + d + (ALIEN_WIDTH : Int) - 1))) := by
  induction l generalizing acc b with
  | nil => simp
  | cons x xs ih =>
    simp only [List.foldl_cons, List.map_cons, List.any_cons]
    rw [ih]
    simp [Bool.or_assoc]

theorem pass2_fold (l : List (Int × Int)) (acc : List (Int × Int)) (b : Bool) :
    l.foldl
      (fun (acc : List (Int × Int) × Bool) alien =>
        let a := (alien.1, alien.2 + 1)
        (acc.1 ++ [a], acc.2 || decide ((INV_HEIGHT : Int) - 1 ≤ a.2)))
      (acc, b) =
    (acc ++ l.map (fun alien => (alien.1, alien.2 + 1)),
     b || l.any (fun alien => decide ((INV_HEIGHT : Int) - 1 ≤ alien.2 + 1))) := by
  induction l generalizing acc b with
  | nil => simp
  | cons x xs ih =>
    simp only [List.foldl_cons, List.map_cons, List.any_cons]
    rw [ih]
    simp [Bool.or_assoc]

/-- C4: each alien movement step shifts every alien horizontally by the
shared direction; when some shifted alien breaches the near-border margins,
the same step reverses the shared direction, moves every alien down exactly
one row, adjusts the interval, and flags game over exactly when some alien
row thereby reaches the lower bound. -/
theorem move_aliens_spec (s : InvState) :
    (s.aliens.any (fun a => decide (a.1 + s.direction ≤ 1) ||
        decide ((INV_WIDTH : Int) - 2 ≤ a.1 + s.direction + (ALIEN_WIDTH : Int) - 1)) = false →
      move_aliens s = { s with aliens := s.aliens.map fun a => (a.1 + s.direction, a.2) }) ∧
    (s.aliens.any (fun a => decide (a.1 + s.direction ≤ 1) ||
        decide ((INV_WIDTH : Int) - 2 ≤ a.1 + s.direction + (ALIEN_WIDTH : Int) - 1)) = true →
      move_aliens s = { s with
        aliens := s.aliens.map fun a => (a.1 + s.direction, a.2 + 1)
        direction := -s.direction
        game_over := s.game_over ||
          s.aliens.any (fun a => decide ((INV_HEIGHT : Int) - 1 ≤ a.2 + 1))
        move_interval := max (s.move_interval * (9 / 10)) (1 / 20) }) := by
  constructor
  · intro hb
    simp only [move_aliens, pass1_fold, Bool.false_or]
    rw [if_neg (by rw [hb]; exact Bool.false_ne_true)]
    rfl
  · intro hb
    simp only [move_aliens, pass1_fold, Bool.false_or]
    rw [if_pos hb]
    simp only [List.nil_append, pass2_fold, List.map_map, List.any_map]
    rfl

/-- C4 witness: from the freshly constructed formation no margin is
breached, so the step is a pure horizontal shift. -/
theorem move_aliens_spec_witness :
    (init_inv.aliens.any (fun a => decide (a.1 + init_inv.direction ≤ 1) ||
        decide ((INV_WIDTH : Int) - 2 ≤ a.1 + init_inv.direction + (ALIEN_WIDTH : Int) - 1)) =
      false) ∧
    move_aliens init_inv =
      { init_inv with aliens := init_inv.aliens.map fun a => (a.1 + init_inv.direction, a.2) } :=
  ⟨by decide, (move_aliens_spec init_inv).1 (by decide)⟩

theorem hit_scan_eq (x y : Int) (l : List (Int × Int)) :
    hit_scan x y l =
      match l.find? (fun a => a.2 == y && decide (a.1 ≤ x) &&
          decide (x < a.1 + (ALIEN_WIDTH : Int))) with
      | some a => some (l.erase a)
      | none => none := by
  induction l with
  | nil => rfl
  | cons a rest ih =>
    by_cases h : (a.2 == y && decide (a.1 ≤ x) && decide (x < a.1 + (ALIEN_WIDTH : Int))) = true
    · simp [hit_scan, h, List.find?_cons, List.erase_cons_head]
    · cases hf : rest.find? (fun a => a.2 == y && decide (a.1 ≤ x) &&
          decide (x < a.1 + (ALIEN_WIDTH : Int))) with
      | none => simp [hit_scan, h, List.find?_cons, hf, ih]
      | some b =>
        have hpb := List.find?_some hf
        have hab : (a == b) = false := by
          rw [beq_eq_false_iff_ne]
          rintro rfl
          rw [hpb] at h
          exact h rfl
        simp [hit_scan, h, List.find?_cons, hf, ih, List.erase_cons, hab]

theorem bullet_step_eq (aliens : List (Int × Int)) (score : Nat)
    (nbs : List (Int × Int)) (x y : Int) :
    bullet_step (aliens, score, nbs) (x, y) =
      if y - 1 ≤ 0 then (aliens, score, nbs)
      else
        match aliens.find? (fun a => a.2 == y - 1 && decide (a.1 ≤ x) &&
            decide (x < a.1 + (ALIEN_WIDTH : Int))) with
        | some a => (aliens.erase a, score + 10, nbs)
        | none => (aliens, score, nbs ++ [(x, y - 1)]) := by
  unfold bullet_step
  by_cases h : y - 1 ≤ 0
  · simp [h]
  · simp only [h, if_false, if_neg h]
    rw [hit_scan_eq]
    cases aliens.find? (fun a => a.2 == y - 1 && decide (a.1 ≤ x) &&
        decide (x < a.1 + (ALIEN_WIDTH : Int))) <;> simp

/-- C5: in a bullet step each bullet advances one row toward the aliens; it
is dropped when it exits the top bound, and otherwise removes at most one
alien — the first alien in alien-list order whose row equals the bullet row
and whose horizontal span contains the bullet — adding the fixed points and
consuming the bullet on that hit. `step_bullets` folds this over the
bullet list in order. -/
theorem step_bullets_spec (aliens : List (Int × Int)) (score : Nat)
    (nbs : List (Int × Int)) (x y : Int) :
    (y - 1 ≤ 0 → bullet_step (aliens, score, nbs) (x, y) = (aliens, score, nbs)) ∧
    (0 < y - 1 →
      bullet_step (aliens, score, nbs) (x, y) =
        match aliens.find? (fun a => a.2 == y - 1 && decide (a.1 ≤ x) &&
            decide (x < a.1 + (ALIEN_WIDTH : Int))) with
        | some a => (aliens.erase a, score + 10, nbs)
        | none => (aliens, score, nbs ++ [(x, y - 1)])) ∧
    aliens.length ≤ (bullet_step (aliens, score, nbs) (x, y)).1.length + 1 ∧
    (bullet_step (aliens, score, nbs) (x, y)).1.length ≤ aliens.length ∧
    (∀ s : InvState, step_bullets s =
      { s with aliens := (s.bullets.foldl bullet_step (s.aliens, s.score, [])).1
               score := (s.bullets.foldl bullet_step (s.aliens, s.score, [])).2.1
               bullets := (s.bullets.foldl bullet_step (s.aliens, s.score, [])).2.2 }) := by
  have hlen : aliens.length ≤ (bullet_step (aliens, score, nbs) (x, y)).1.length + 1 ∧
      (bullet_step (aliens, score, nbs) (x, y)).1.length ≤ aliens.length := by
    rw [bullet_step_eq]
    by_cases h : y - 1 ≤ 0
    · simp [h]
    · simp only [h, if_false, if_neg h]
      cases hf : aliens.find? (fun a => a.2 == y - 1 && decide (a.1 ≤ x) &&
          decide (x < a.1 + (ALIEN_WIDTH : Int))) with
      | none => simp
      | some a =>
        have hmem := List.mem_of_find?_eq_some hf
        have := List.length_erase_of_mem hmem
        simp only []
        omega
  refine ⟨?_, ?_, hlen.1, hlen.2, fun s => rfl⟩
  · intro h
    rw [bullet_step_eq, if_pos h]
  · intro h
    rw [bullet_step_eq, if_neg (by omega)]

/-- C5 witness: the characterisation evaluated for a single bullet one row
under a lone alien, which it hits. -/
theorem step_bullets_spec_witness :
    ((3 : Int) - 1 ≤ 0 → bullet_step ([((6 : Int), (2 : Int))], 0, []) (7, 3) =
      ([((6 : Int), (2 : Int))], 0, [])) ∧
    (0 < (3 : Int) - 1 →
      bullet_step ([((6 : Int), (2 : Int))], 0, []) (7, 3) =
        match [((6 : Int), (2 : Int))].find? (fun a => a.2 == (3 : Int) - 1 &&
            decide (a.1 ≤ (7 : Int)) && decide ((7 : Int) < a.1 + (ALIEN_WIDTH : Int))) with
        | some a => ([((6 : Int), (2 : Int))].erase a, 0 + 10, [])
        | none => ([((6 : Int), (2 : Int))], 0, [] ++ [((7 : Int), (3 : Int) - 1)])) ∧
    [((6 : Int), (2 : Int))].length ≤
      (bullet_step ([((6 : Int), (2 : Int))], 0, []) (7, 3)).1.length + 1 ∧
    (bullet_step ([((6 : Int), (2 : Int))], 0, []) (7, 3)).1.length ≤
      [((6 : Int), (2 : Int))].length ∧
    (∀ s : InvState, step_bullets s =
      { s with aliens := (s.bullets.foldl bullet_step (s.aliens, s.score, [])).1
               score := (s.bullets.foldl bullet_step (s.aliens, s.score, [])).2.1
               bullets := (s.bullets.foldl bullet_step (s.aliens, s.score, [])).2.2 }) :=
  step_bullets_spec [((6 : Int), (2 : Int))] 0 [] 7 3

theorem move_aliens_interval (s : InvState) :
    (move_aliens s).move_interval = s.move_interval ∨
    (move_aliens s).move_interval = max (s.move_interval * (9 / 10)) (1 / 20) := by
  simp only [move_aliens]
  split
  · exact Or.inr rfl
  · exact Or.inl rfl

theorem inv_update_interval (s s' : InvState) (h : InvUpdate s s')
    (hf : 1 / 20 ≤ s.move_interval) :
    s'.move_interval ≤ s.move_interval ∧ (1 : ℚ) / 20 ≤ s'.move_interval ∧
      (s'.move_interval = s.move_interval ∨
       s'.move_interval = max (s.move_interval * (9 / 10)) (1 / 20)) := by
  have hle : max (s.move_interval * (9 / 10)) (1 / 20) ≤ s.move_interval :=
    max_le (by linarith) hf
  cases h with
  | aliens =>
    cases move_aliens_interval s with
    | inl hp => rw [hp]; exact ⟨le_refl _, hf, Or.inl rfl⟩
    | inr hp => rw [hp]; exact ⟨hle, le_max_right _ _, Or.inr rfl⟩
  | bullets => exact ⟨le_refl _, hf, Or.inl rfl⟩
  | left hp => exact ⟨le_refl _, hf, Or.inl rfl⟩
  | right hp => exact ⟨le_refl _, hf, Or.inl rfl⟩
  | fire hp => exact ⟨le_refl _, hf, Or.inl rfl⟩

theorem inv_reachable_floor (s : InvState) (h : InvReachable s) :
    (1 : ℚ) / 20 ≤ s.move_interval := by
  induction h with
  | refl => norm_num [init_inv]
  | tail hstep hupd ih => exact (inv_update_interval _ _ hupd ih).2.1

/-- C6: in any session starting from the initial interval, `move_interval`
is non-increasing across every state update — it changes only to
`max (interval * 0.9, 0.05)` on descent events — and never drops below the
floor constant `0.05 = 1/20`. -/
theorem move_interval_invariant (s s' : InvState) (hr : InvReachable s)
    (h : InvUpdate s s') :
    (1 : ℚ) / 20 ≤ s.move_interval ∧ s'.move_interval ≤ s.move_interval ∧
    (1 : ℚ) / 20 ≤ s'.move_interval ∧
    (s'.move_interval = s.move_interval ∨
     s'.move_interval = max (s.move_interval * (9 / 10)) (1 / 20)) := by
  have hf := inv_reachable_floor s hr
  obtain ⟨h1, h2, h3⟩ := inv_update_interval s s' h hf
  exact ⟨hf, h1, h2, h3⟩

/-- C6 witness: the invariant applied to the first alien step of a session. -/
theorem move_interval_invariant_witness :
    (1 : ℚ) / 20 ≤ init_inv.move_interval ∧
    (move_aliens init_inv).move_interval ≤ init_inv.move_interval ∧
    (1 : ℚ) / 20 ≤ (move_aliens init_inv).move_interval ∧
    ((move_aliens init_inv).move_interval = init_inv.move_interval ∨
     (move_aliens init_inv).move_interval =
       max (init_inv.move_interval * (9 / 10)) (1 / 20)) :=
  move_interval_invariant init_inv (move_aliens init_inv)
    Relation.ReflTransGen.refl (InvUpdate.aliens init_inv)

theorem interior_plat_row (g : Nat) : interior (plat_row g) = plat_parts g :=
  List.dropLast_concat

theorem interior_floor_row : interior floor_row = List.replicate CLIMB_WIDTH '=' :=
  List.dropLast_concat

theorem interior_blank_row : interior blank_row = List.replicate CLIMB_WIDTH ' ' :=
  List.dropLast_concat

theorem floor_row_platform : IsPlatformRow floor_row := by
  show '=' ∈ interior floor_row
  rw [interior_floor_row]
  exact List.mem_replicate.mpr ⟨by decide, rfl⟩

theorem blank_row_not_platform : ¬ IsPlatformRow blank_row := by
  show ¬ '=' ∈ interior blank_row
  rw [interior_blank_row]
  intro h
  have := List.eq_of_mem_replicate h
  exact absurd this (by decide)

theorem blank_row_blank : IsBlankRow blank_row := by
  show ∀ c ∈ interior blank_row, c = ' '
  rw [interior_blank_row]
  intro c hc
  exact List.eq_of_mem_replicate hc

set_option maxHeartbeats 1000000 in
theorem plat_parts_spec : ∀ g, g < CLIMB_WIDTH - 3 → 1 ≤ g →
    ('=' ∈ plat_parts g ∧ ∀ i, i < CLIMB_WIDTH →
      (((plat_parts g).getD i '=') = ' ' ↔ (g ≤ i ∧ i ≤ g + 2)) ∧
      (((plat_parts g).getD i '=') = ' ' ∨ ((plat_parts g).getD i '=') = '=')) := by
  decide

theorem plat_row_platform (g : Nat) (h1 : g < CLIMB_WIDTH - 3) (h2 : 1 ≤ g) :
    IsPlatformRow (plat_row g) := by
  show '=' ∈ interior (plat_row g)
  rw [interior_plat_row]
  exact (plat_parts_spec g h1 h2).1

theorem plat_row_onegap (g : Nat) (h1 : g < CLIMB_WIDTH - 3) (h2 : 1 ≤ g) :
    OneGapRow (plat_row g) := by
  refine ⟨g, h1, h2, ?_⟩
  intro i hi
  rw [interior_plat_row]
  exact (plat_parts_spec g h1 h2).2 i hi

theorem row_at_append_lt (w : List Row) (r : Row) (i : Nat) (h : i < w.length) :
    row_at (w ++ [r]) i = row_at w i :=
  List.getD_append w [r] [] i h

theorem row_at_append_len (w : List Row) (r : Row) :
    row_at (w ++ [r]) w.length = r := by
  show (w ++ [r]).getD w.length [] = r
  rw [List.getD_append_right w [r] [] w.length (le_refl _)]
  simp

theorem geninv_nil (w : List Row) (cd : Nat) (h : GenInv w cd) (hw : w = []) :
    cd = 1 ∨ cd = 2 := by
  induction h with
  | start cd hcd => exact hcd
  | floor cd hcd => exact hcd
  | blank w cd hp hne ih => simp at hw
  | plat w g cd hp hne hg1 hg2 hcd ih => simp at hw

theorem geninv_generate_row (st : List Row × Nat) (g r : Nat)
    (h : GenInv st.1 st.2) (hg1 : 1 ≤ g) (hg2 : g ≤ CLIMB_WIDTH - 4)
    (hr : r = 1 ∨ r = 2) :
    GenInv (generate_row st g r).1 (generate_row st g r).2 := by
  obtain ⟨w, cd⟩ := st
  by_cases hw : w = []
  · subst hw
    have hcd := geninv_nil [] cd h rfl
    simp only [generate_row, if_pos rfl]
    exact GenInv.floor cd hcd
  · by_cases hcd : 0 < cd
    · simp only [generate_row, if_neg hw, if_pos hcd]
      have heq : cd - 1 + 1 = cd := by omega
      exact GenInv.blank w (cd - 1) (by rw [heq]; exact h) hw
    · have hcd0 : cd = 0 := by omega
      subst hcd0
      simp only [generate_row, if_neg hw, if_neg hcd]
      exact GenInv.plat w g r h hw hg1 hg2 hr

theorem geninv_generate_rows (stream : Nat → Nat × Nat)
    (hs : ∀ k, 1 ≤ (stream k).1 ∧ (stream k).1 ≤ CLIMB_WIDTH - 4 ∧
      ((stream k).2 = 1 ∨ (stream k).2 = 2))
    (n cd₀ : Nat) (h0 : cd₀ = 1 ∨ cd₀ = 2) :
    GenInv (generate_rows stream n ([], cd₀)).1 (generate_rows stream n ([], cd₀)).2 := by
  induction n with
  | zero => exact GenInv.start cd₀ h0
  | succ n ih =>
    simp only [generate_rows]
    exact geninv_generate_row _ _ _ ih (hs n).1 (hs n).2.1 (hs n).2.2

theorem geninv_props (w : List Row) (cd : Nat) (h : GenInv w cd) :
    GapProp 1 w ∧ SpacingProp w ∧ TrailingProp w cd := by
  induction h with
  | start cd hcd =>
    refine ⟨?_, ?_, Or.inl rfl⟩
    · intro i h1 h2 _
      simp at h2
    · intro i j hij hj _ _ _
      simp at hj
  | floor cd hcd =>
    refine ⟨?_, ?_, Or.inr ⟨0, by simpa using hcd, by simp, ?_, ?_⟩⟩
    · intro i h1 h2 _
      simp at h2
      omega
    · intro i j hij hj _ _ _
      simp at hj
      omega
    · intro k hk1 hk2
      simp at hk1 hk2
      omega
    · simpa using floor_row_platform
  | blank w cd hp hne ih =>
    obtain ⟨gap, spac, trail⟩ := ih
    rcases trail with hnil | ⟨t, hsum, htlt, hblanks, hplat⟩
    · exact absurd hnil hne
    have hlen : (w ++ [blank_row]).length = w.length + 1 := by simp
    refine ⟨?_, ?_, Or.inr ⟨t + 1, by omega, by rw [hlen]; omega, ?_, ?_⟩⟩
    · intro i h1 hlt hip
      rw [hlen] at hlt
      by_cases hi : i < w.length
      · rw [row_at_append_lt w _ i hi] at hip ⊢
        exact gap i h1 hi hip
      · have hieq : i = w.length := by omega
        subst hieq
        rw [row_at_append_len] at hip
        exact absurd hip blank_row_not_platform
    · intro i j hij hjlt hpi hpj hbet
      rw [hlen] at hjlt
      by_cases hj : j < w.length
      · have hi : i < w.length := lt_trans hij hj
        rw [row_at_append_lt w _ i hi] at hpi
        rw [row_at_append_lt w _ j hj] at hpj
        have hbet2 : ∀ k, i < k → k < j → ¬ IsPlatformRow (row_at w k) := by
          intro k hk1 hk2
          have hk : k < w.length := lt_trans hk2 hj
          rw [← row_at_append_lt w blank_row k hk]
          exact hbet k hk1 hk2
        obtain ⟨hd, hb⟩ := spac i j hij hj hpi hpj hbet2
        refine ⟨hd, ?_⟩
        intro k hk1 hk2
        have hk : k < w.length := lt_trans hk2 hj
        rw [row_at_append_lt w _ k hk]
        exact hb k hk1 hk2
      · have hjeq : j = w.length := by omega
        subst hjeq
        rw [row_at_append_len] at hpj
        exact absurd hpj blank_row_not_platform
    · intro k hk1 hk2
      rw [hlen] at hk1 hk2
      by_cases hk : k < w.length
      · rw [row_at_append_lt w _ k hk]
        exact hblanks k (by omega) hk
      · have hkeq : k = w.length := by omega
        subst hkeq
        exact row_at_append_len w _
    · rw [hlen]
      have hidx : w.length + 1 - 1 - (t + 1) = w.length - 1 - t := by omega
      rw [hidx, row_at_append_lt w _ _ (by omega)]
      exact hplat
  | plat w g cd hp hne hg1 hg2 hcd ih =>
    obtain ⟨gap, spac, trail⟩ := ih
    rcases trail with hnil | ⟨t, hsum, htlt, hblanks, hplatw⟩
    · exact absurd hnil hne
    have ht12 : t = 1 ∨ t = 2 := by omega
    have hlen : (w ++ [plat_row g]).length = w.length + 1 := by simp
    have hg27 : g < CLIMB_WIDTH - 3 := by
      have hcw : CLIMB_WIDTH = 30 := rfl
      omega
    refine ⟨?_, ?_, Or.inr ⟨0, by simpa using hcd, by rw [hlen]; omega, ?_, ?_⟩⟩
    · intro i h1 hlt hip
      rw [hlen] at hlt
      by_cases hi : i < w.length
      · rw [row_at_append_lt w _ i hi] at hip ⊢
        exact gap i h1 hi hip
      · have hieq : i = w.length := by omega
        subst hieq
        rw [row_at_append_len]
        exact plat_row_onegap g hg27 hg1
    · intro i j hij hjlt hpi hpj hbet
      rw [hlen] at hjlt
      by_cases hj : j < w.length
      · have hi : i < w.length := lt_trans hij hj
        rw [row_at_append_lt w _ i hi] at hpi
        rw [row_at_append_lt w _ j hj] at hpj
        have hbet2 : ∀ k, i < k → k < j → ¬ IsPlatformRow (row_at w k) := by
          intro k hk1 hk2
          have hk : k < w.length := lt_trans hk2 hj
          rw [← row_at_append_lt w (plat_row g) k hk]
          exact hbet k hk1 hk2
        obtain ⟨hd, hb⟩ := spac i j hij hj hpi hpj hbet2
        refine ⟨hd, ?_⟩
        intro k hk1 hk2
        have hk : k < w.length := lt_trans hk2 hj
        rw [row_at_append_lt w _ k hk]
        exact hb k hk1 hk2
      · have hjeq : j = w.length := by omega
        subst hjeq
        have hi : i < w.length := hij
        rw [row_at_append_lt w _ i hi] at hpi
        rcases lt_trichotomy i (w.length - 1 - t) with hlt2 | heq | hgt
        · exfalso
          apply hbet (w.length - 1 - t) hlt2 (by omega)
          rw [row_at_append_lt w _ _ (by omega)]
          exact hplatw
        · subst heq
          refine ⟨by omega, ?_⟩
          intro k hk1 hk2
          rw [row_at_append_lt w _ k (by omega)]
          rw [hblanks k (by omega) (by omega)]
          exact blank_row_blank
        · exfalso
          have hbi : row_at w i = blank_row := hblanks i (by omega) hi
          rw [hbi] at hpi
          exact blank_row_not_platform hpi
    · intro k hk1 hk2
      rw [hlen] at hk1 hk2
      exfalso
      omega
    · rw [hlen]
      have hidx : w.length + 1 - 1 - 0 = w.length := by omega
      rw [hidx, row_at_append_len]
      exact plat_row_platform g hg27 hg1

/-- C7 (amended): every platform row generated above the initial solid floor
row contains exactly one contiguous 3-cell-wide gap of empty cells with all
other interior cells platform cells, and between any two consecutive
platform rows of the generated world lie at least one and at most two
all-empty rows, as driven by the stored countdown. -/
theorem generate_row_spec (stream : Nat → Nat × Nat)
    (hs : ∀ k, 1 ≤ (stream k).1 ∧ (stream k).1 ≤ CLIMB_WIDTH - 4 ∧
      ((stream k).2 = 1 ∨ (stream k).2 = 2))
    (n cd₀ : Nat) (h0 : cd₀ = 1 ∨ cd₀ = 2) :
    GapProp 1 (gen_world stream n cd₀) ∧ SpacingProp (gen_world stream n cd₀) := by
  have h := geninv_generate_rows stream hs n cd₀ h0
  have hp := geninv_props _ _ h
  exact ⟨hp.1, hp.2.1⟩

/-- C7 witness: the amended property instantiated on a concrete oracle
stream and six generated rows. -/
theorem generate_row_spec_witness :
    (∀ k : Nat, 1 ≤ ((fun _ => (1, 1) : Nat → Nat × Nat) k).1 ∧
      ((fun _ => (1, 1) : Nat → Nat × Nat) k).1 ≤ CLIMB_WIDTH - 4 ∧
      (((fun _ => (1, 1) : Nat → Nat × Nat) k).2 = 1 ∨
        ((fun _ => (1, 1) : Nat → Nat × Nat) k).2 = 2)) ∧
    ((1 : Nat) = 1 ∨ (1 : Nat) = 2) ∧
    GapProp 1 (gen_world (fun _ => (1, 1)) 6 1) ∧
    SpacingProp (gen_world (fun _ => (1, 1)) 6 1) :=
  ⟨fun _ => ⟨le_refl 1, show (1 : Nat) ≤ CLIMB_WIDTH - 4 by decide, Or.inl rfl⟩,
    Or.inl rfl,
    generate_row_spec (fun _ => (1, 1))
      (fun _ => ⟨le_refl 1, show (1 : Nat) ≤ CLIMB_WIDTH - 4 by decide, Or.inl rfl⟩)
      6 1 (Or.inl rfl)⟩

/-- C7 counterexample: the very first generated row (the solid floor built
when the world is empty) is a platform row with no gap at all, so it is not
true that every generated platform row carries exactly one 3-cell gap. -/
theorem generate_row_counterexample :
    IsPlatformRow (row_at (gen_world (fun _ => (1, 1)) 1 1) 0) ∧
    ¬ OneGapRow (row_at (gen_world (fun _ => (1, 1)) 1 1) 0) := by
  constructor
  · decide
  · decide

end VibeCode
